import Mathlib

/-!
Shallow embedding of the ingestion-pipeline core of this repository
(the React `App` component): the step-progression state machine
(`startProcessing`, `pause`, `resume`, `reset`, the animation `tick`),
the derived `overallProgress` value, and the `computePartCount`
part planner.  JS numbers are modelled by `ℚ` (all the arithmetic the
claims touch is exact rational arithmetic); timestamps delivered by
`performance.now()` become explicit `now : ℚ` parameters.
-/

namespace Ingestion

/-- One entry of `STEP_DEFINITIONS`: a pipeline stage with its key,
display label and simulated nominal duration in milliseconds. -/
structure StepDef where
  key : String
  label : String
  durationMs : ℚ
deriving DecidableEq

/-- The six configured pipeline stages, verbatim from the source. -/
def STEP_DEFINITIONS : List StepDef :=
  [ { key := "extract", label := "Extract audio (ffmpeg)", durationMs := 2000 },
    { key := "transcribe", label := "Transcribe (Whisper)", durationMs := 3000 },
    { key := "parse", label := "Parse fields (AI+rules)", durationMs := 2000 },
    { key := "merge", label := "Merge top/bottom", durationMs := 1500 },
    { key := "screenshots", label := "Auto screenshots", durationMs := 1500 },
    { key := "excel", label := "Build Excel report", durationMs := 1500 } ]

/-- The mutable state of the `App` component that the pipeline operations
read and write: `file` is the truthiness of the selected file, `processing`
and `paused` are the two status booleans, `currentStepIndex` is `-1` when
not started, `stepProgress` is the active step's 0..100 percentage,
`elapsedRef` and `stepStartRef` are the two timing refs, and
`timerPending` records whether an animation-frame callback is currently
scheduled (`timerRef.current` being set). -/
structure PState where
  file : Bool
  processing : Bool
  paused : Bool
  currentStepIndex : ℤ
  stepProgress : ℚ
  elapsedRef : ℚ
  stepStartRef : ℚ
  timerPending : Bool
deriving DecidableEq

/-- The four pipeline statuses of the spec's data model. -/
inductive Status where
  | NotStarted
  | Running
  | Paused
  | Completed
deriving DecidableEq

/-- Derived status, mapping the source's `(processing, paused,
currentStepIndex)` triple onto the spec's `status` field:
`currentStepIndex = -1` is `NotStarted`; otherwise `processing` means
`Running` (or `Paused` when the paused flag is set) and a finished run
(`processing` false with a nonnegative index) is `Completed`. -/
def status (s : PState) : Status :=
  if s.currentStepIndex = -1 then Status.NotStarted
  else if s.processing then (if s.paused then Status.Paused else Status.Running)
  else Status.Completed

/-- `startProcessing` from the source: guarded only by `if (!file) return`;
resets the run to step 0 with zero progress and captures `now` as the
stage-start reference. -/
def startProcessing (now : ℚ) (s : PState) : PState :=
  if s.file = false then s
  else { s with processing := true, paused := false, currentStepIndex := 0,
                stepProgress := 0, elapsedRef := 0, stepStartRef := now }

/-- `pause` from the source: unconditionally `setPaused(true)`. -/
def pause (s : PState) : PState :=
  { s with paused := true }

/-- `resume` from the source: `if (!processing) return`, then clears the
paused flag and rebases the stage-start reference to
`performance.now() - elapsedRef`. -/
def resume (now : ℚ) (s : PState) : PState :=
  if s.processing = false then s
  else { s with paused := false, stepStartRef := now - s.elapsedRef }

/-- `reset` from the source: unconditionally returns the run state to
not-started and cancels any pending animation frame
(`cancelAnimationFrame(timerRef.current)`). -/
def reset (s : PState) : PState :=
  { s with processing := false, paused := false, currentStepIndex := -1,
           stepProgress := 0, elapsedRef := 0, stepStartRef := 0,
           timerPending := false }

/-- The body of the animation `tick` closure for the active `step`, at
timestamp `now` (both `performance.now()` calls inside one tick are
modelled by the single timestamp `now`).  Computes
`elapsedRef = now - stepStartRef` and
`pct = min(100, (elapsedRef / step.durationMs) * 100)`, stores them, and
on `pct >= 100` either advances to the next step (resetting progress and
the reference) or, at the last step, clears `processing`.  The returned
`Bool` is the continue-scheduling signal: `true` when a further frame
will run (directly via `requestAnimationFrame`, or — in the advance
branch — via the effect re-running on the changed step index), `false`
when the run completed and the effect cleanup cancels the frame. -/
def tick (now : ℚ) (step : StepDef) (s : PState) : PState × Bool :=
  let elapsed := now - s.stepStartRef
  let pct := min 100 (elapsed / step.durationMs * 100)
  let s1 : PState := { s with elapsedRef := elapsed, stepProgress := pct }
  if 100 ≤ pct then
    if s.currentStepIndex + 1 < (STEP_DEFINITIONS.length : ℤ) then
      ({ s1 with currentStepIndex := s.currentStepIndex + 1, stepProgress := 0,
                 elapsedRef := 0, stepStartRef := now, timerPending := true }, true)
    else
      ({ s1 with processing := false, timerPending := false }, false)
  else
    ({ s1 with timerPending := true }, true)

/-- One scheduler-driven tick, including the effect's guards from the
source: `if (!processing || paused || currentStepIndex < 0) return` and
`const step = STEP_DEFINITIONS[currentStepIndex]; if (!step) return`.
When a guard fires no tick body runs and nothing is (re)scheduled. -/
def runTick (now : ℚ) (s : PState) : PState × Bool :=
  if s.processing = false ∨ s.paused = true ∨ s.currentStepIndex < 0 then (s, false)
  else
    match STEP_DEFINITIONS[s.currentStepIndex.toNat]? with
    | none => (s, false)
    | some step => tick now step s

/-- `overallProgress` from the source: equal per-step weights `100 / N`
over the completed steps plus the active step's fractional progress,
clamped into `[0, 100]`. -/
def overallProgress (s : PState) : ℚ :=
  let totalSteps : ℚ := (STEP_DEFINITIONS.length : ℚ)
  let completedSteps : ℚ := ((max 0 s.currentStepIndex : ℤ) : ℚ)
  let perStepWeight : ℚ := 100 / totalSteps
  let completedPct : ℚ := completedSteps * perStepWeight
  let activePct : ℚ := (s.stepProgress / 100) * perStepWeight
  min 100 (max 0 (completedPct + activePct))

/-- The spec's closed-form formula for `overallProgress`:
`min(100, max(0, max(0,currentStageIndex) * (100/N) + (stageProgressPct/100) * (100/N)))`
with `N` the stage count.  Stated from the spec's words, to be compared
with the source's `overallProgress`. -/
def overallProgressSpec (idx : ℤ) (pct : ℚ) : ℚ :=
  min 100 (max 0 (((max 0 idx : ℤ) : ℚ) * (100 / (STEP_DEFINITIONS.length : ℚ)) +
    (pct / 100) * (100 / (STEP_DEFINITIONS.length : ℚ))))

/-- Ceiling division on naturals, modelling `Math.ceil(a / b)` for the
nonnegative integer inputs the part planner uses. -/
def ceilDiv (a b : ℕ) : ℕ := (a + b - 1) / b

/-- The part size and part count the planner computes (the source keeps
`partSize` in a local variable and returns only `count`). -/
structure PartPlan where
  partSize : ℕ
  count : ℕ
deriving DecidableEq

/-- `computePartCount`'s computation from the source, with the chunk size
it used: starts from 8 MiB parts; if the resulting count exceeds
`S3_MAX_PARTS = 10000`, re-derives the part size as
`ceil(sizeBytes / 10000)` and recomputes the count. -/
def computePartPlan (sizeBytes : ℕ) : PartPlan :=
  let S3_MAX_PARTS : ℕ := 10000
  let partSize : ℕ := 8 * 1024 * 1024
  let count : ℕ := ceilDiv sizeBytes partSize
  if S3_MAX_PARTS < count then
    let partSize2 : ℕ := ceilDiv sizeBytes S3_MAX_PARTS
    { partSize := partSize2, count := ceilDiv sizeBytes partSize2 }
  else
    { partSize := partSize, count := count }

/-- `computePartCount` from the source: the count component of the plan. -/
def computePartCount (sizeBytes : ℕ) : ℕ :=
  (computePartPlan sizeBytes).count

/-- The component's initial state: no file selected, nothing started. -/
def initState : PState :=
  { file := false, processing := false, paused := false, currentStepIndex := -1,
    stepProgress := 0, elapsedRef := 0, stepStartRef := 0, timerPending := false }

/-- A state mid-run: file selected, running at step 2 with 50 percent
progress. -/
def runningState : PState :=
  { file := true, processing := true, paused := false, currentStepIndex := 2,
    stepProgress := 50, elapsedRef := 1000, stepStartRef := 3000, timerPending := true }

/-- A state with a file selected and the run not yet started. -/
def fileReady : PState :=
  { file := true, processing := false, paused := false, currentStepIndex := -1,
    stepProgress := 0, elapsedRef := 0, stepStartRef := 0, timerPending := false }

/-- Intermediate states of one concrete full run, started at time 0 with
ticks at the stage boundaries 2000, 5000, 7000, 8500, 10000 and 11500:
the state right after the start. -/
def c6s0 : PState :=
  { file := true, processing := true, paused := false, currentStepIndex := 0,
    stepProgress := 0, elapsedRef := 0, stepStartRef := 0, timerPending := false }

/-- The concrete run after the boundary tick at 2000: step 1 begins. -/
def c6s1 : PState :=
  { file := true, processing := true, paused := false, currentStepIndex := 1,
    stepProgress := 0, elapsedRef := 0, stepStartRef := 2000, timerPending := true }

/-- The concrete run after the boundary tick at 5000: step 2 begins. -/
def c6s2 : PState :=
  { file := true, processing := true, paused := false, currentStepIndex := 2,
    stepProgress := 0, elapsedRef := 0, stepStartRef := 5000, timerPending := true }

/-- The concrete run after the boundary tick at 7000: step 3 begins. -/
def c6s3 : PState :=
  { file := true, processing := true, paused := false, currentStepIndex := 3,
    stepProgress := 0, elapsedRef := 0, stepStartRef := 7000, timerPending := true }

/-- The concrete run after the boundary tick at 8500: step 4 begins. -/
def c6s4 : PState :=
  { file := true, processing := true, paused := false, currentStepIndex := 4,
    stepProgress := 0, elapsedRef := 0, stepStartRef := 8500, timerPending := true }

/-- The concrete run after the boundary tick at 10000: step 5 begins. -/
def c6s5 : PState :=
  { file := true, processing := true, paused := false, currentStepIndex := 5,
    stepProgress := 0, elapsedRef := 0, stepStartRef := 10000, timerPending := true }

/-- The concrete run after the final tick at 11500: completed. -/
def c6s6 : PState :=
  { file := true, processing := false, paused := false, currentStepIndex := 5,
    stepProgress := 100, elapsedRef := 1500, stepStartRef := 10000, timerPending := false }

/-- States reachable within one run: `startProcessing` with a file
selected begins the run at some time, and the scheduler then delivers
ticks at non-decreasing timestamps.  The second component is the
timestamp of the last event. -/
inductive Reach : PState → ℚ → Prop where
  | start (s0 : PState) (t : ℚ) (hf : s0.file = true) :
      Reach (startProcessing t s0) t
  | tickStep (s : PState) (t t' : ℚ) (h : Reach s t) (hle : t ≤ t') :
      Reach (runTick t' s).1 t'

/-- Run invariant at last-event time `t`: the step index stays in
`[0, 6)`, the step progress stays in `[0, 100]`, the stage-start
reference is not in the future, and while processing the progress is
strictly below 100 and bounded by the value a tick at time `t` would
compute. -/
def Inv (s : PState) (t : ℚ) : Prop :=
  0 ≤ s.currentStepIndex ∧ s.currentStepIndex < 6 ∧
  0 ≤ s.stepProgress ∧ s.stepProgress ≤ 100 ∧
  s.stepStartRef ≤ t ∧
  (s.processing = true →
    s.stepProgress < 100 ∧
    ∀ step : StepDef, STEP_DEFINITIONS[s.currentStepIndex.toNat]? = some step →
      s.stepProgress ≤ min 100 ((t - s.stepStartRef) / step.durationMs * 100))

section CeilDivLemmas

lemma ceilDiv_le_iff (a b c : ℕ) (hb : 0 < b) : ceilDiv a b ≤ c ↔ a ≤ b * c := by
  unfold ceilDiv
  rw [Nat.div_le_iff_le_mul_add_pred hb]
  omega

lemma le_mul_ceilDiv (a b : ℕ) (hb : 0 < b) : a ≤ b * ceilDiv a b :=
  (ceilDiv_le_iff a b (ceilDiv a b) hb).mp le_rfl

lemma one_le_ceilDiv (a b : ℕ) (ha : 1 ≤ a) (hb : 0 < b) : 1 ≤ ceilDiv a b := by
  by_contra hc
  have h0 : ceilDiv a b ≤ 0 := by omega
  have := (ceilDiv_le_iff a b 0 hb).mp h0
  omega

/-- The three guarantees of the part plan for positive sizes: at least one
chunk, at most 10000 chunks, and the chunks cover the whole size. -/
lemma computePartPlan_spec (n : ℕ) (h : 1 ≤ n) :
    1 ≤ (computePartPlan n).count ∧ (computePartPlan n).count ≤ 10000 ∧
    n ≤ (computePartPlan n).partSize * (computePartPlan n).count := by
  have h8 : (0:ℕ) < 8 * 1024 * 1024 := by norm_num
  have h10 : (0:ℕ) < 10000 := by norm_num
  by_cases hc : 10000 < ceilDiv n (8 * 1024 * 1024)
  · have hplan : computePartPlan n =
        { partSize := ceilDiv n 10000, count := ceilDiv n (ceilDiv n 10000) } := by
      unfold computePartPlan
      rw [if_pos hc]
    have hp2 : 0 < ceilDiv n 10000 := one_le_ceilDiv n 10000 h h10
    rw [hplan]
    dsimp only
    refine ⟨one_le_ceilDiv n _ h hp2, ?_, le_mul_ceilDiv n _ hp2⟩
    rw [ceilDiv_le_iff n _ 10000 hp2, Nat.mul_comm]
    exact le_mul_ceilDiv n 10000 h10
  · have hplan : computePartPlan n =
        { partSize := 8 * 1024 * 1024, count := ceilDiv n (8 * 1024 * 1024) } := by
      unfold computePartPlan
      rw [if_neg hc]
    rw [hplan]
    dsimp only
    exact ⟨one_le_ceilDiv n _ h h8, by omega, le_mul_ceilDiv n _ h8⟩

end CeilDivLemmas

section TickLemmas

lemma runTick_run (now : ℚ) (s : PState) (step : StepDef)
    (hp : s.processing = true) (hq : s.paused = false) (hi : 0 ≤ s.currentStepIndex)
    (hstep : STEP_DEFINITIONS[s.currentStepIndex.toNat]? = some step) :
    runTick now s = tick now step s := by
  have hg : ¬ (s.processing = false ∨ s.paused = true ∨ s.currentStepIndex < 0) := by
    push_neg
    refine ⟨by simp [hp], by simp [hq], by omega⟩
  unfold runTick
  rw [if_neg hg, hstep]

lemma tick_progress (now : ℚ) (step : StepDef) (s : PState)
    (h : min 100 ((now - s.stepStartRef) / step.durationMs * 100) < 100) :
    tick now step s =
      ({ s with elapsedRef := now - s.stepStartRef,
                stepProgress := min 100 ((now - s.stepStartRef) / step.durationMs * 100),
                timerPending := true }, true) := by
  simp only [tick]
  rw [if_neg (not_le.mpr h)]

lemma tick_advance (now : ℚ) (step : StepDef) (s : PState)
    (h : 100 ≤ min 100 ((now - s.stepStartRef) / step.durationMs * 100))
    (hadv : s.currentStepIndex + 1 < (STEP_DEFINITIONS.length : ℤ)) :
    tick now step s =
      ({ s with currentStepIndex := s.currentStepIndex + 1, stepProgress := 0,
                elapsedRef := 0, stepStartRef := now, timerPending := true }, true) := by
  simp only [tick]
  rw [if_pos h, if_pos hadv]

lemma tick_complete (now : ℚ) (step : StepDef) (s : PState)
    (h : 100 ≤ min 100 ((now - s.stepStartRef) / step.durationMs * 100))
    (hadv : ¬ s.currentStepIndex + 1 < (STEP_DEFINITIONS.length : ℤ)) :
    tick now step s =
      ({ s with elapsedRef := now - s.stepStartRef,
                stepProgress := min 100 ((now - s.stepStartRef) / step.durationMs * 100),
                processing := false, timerPending := false }, false) := by
  simp only [tick]
  rw [if_pos h, if_neg hadv]

lemma tick_fields (now : ℚ) (step : StepDef) (s2 : PState)
    (h : min 100 ((now - s2.stepStartRef) / step.durationMs * 100) < 100) :
    (tick now step s2).1.elapsedRef = now - s2.stepStartRef ∧
    (tick now step s2).1.stepProgress =
      min 100 ((now - s2.stepStartRef) / step.durationMs * 100) := by
  rw [tick_progress now step s2 h]
  exact ⟨rfl, rfl⟩

lemma resume_pause_fields (s : PState) (E t0 : ℚ)
    (hp : s.processing = true) (hE : s.elapsedRef = E) :
    (resume t0 (pause s)).stepStartRef = t0 - E ∧
    (resume t0 (pause s)).processing = true ∧
    (resume t0 (pause s)).paused = false ∧
    (resume t0 (pause s)).currentStepIndex = s.currentStepIndex := by
  have hres : resume t0 (pause s) = { s with paused := false, stepStartRef := t0 - E } := by
    unfold pause resume
    rw [if_neg (by simp [hp])]
    simp [hE]
  rw [hres]
  exact ⟨rfl, hp, rfl, rfl⟩

end TickLemmas

/-- Claim C1: after a pause with accumulated elapsed time `E` (the value
last written to `elapsedRef` by `tick`, with `stepProgress` the matching
percentage), `resume` at time `t0` rebases the stage-start reference to
`t0 - E`; the tick computation at `t0` then finds elapsed time exactly
`E` and reproduces the pre-pause `stepProgress`, and (when the stage is
not already complete) the first scheduler tick at `t0` stores exactly
those values back into the state. -/
theorem C1_resume_continuity (s : PState) (E t0 : ℚ) (step : StepDef)
    (hp : s.processing = true) (hi : 0 ≤ s.currentStepIndex)
    (hstep : STEP_DEFINITIONS[s.currentStepIndex.toNat]? = some step)
    (hE : s.elapsedRef = E)
    (hpct : s.stepProgress = min 100 (E / step.durationMs * 100)) :
    (resume t0 (pause s)).stepStartRef = t0 - E ∧
    t0 - (resume t0 (pause s)).stepStartRef = E ∧
    min 100 ((t0 - (resume t0 (pause s)).stepStartRef) / step.durationMs * 100) =
      s.stepProgress ∧
    (s.stepProgress < 100 →
      (runTick t0 (resume t0 (pause s))).1.elapsedRef = E ∧
      (runTick t0 (resume t0 (pause s))).1.stepProgress = s.stepProgress) := by
  obtain ⟨h1, h2, h3, h4⟩ := resume_pause_fields s E t0 hp hE
  have hsub : t0 - (t0 - E) = E := by
    ring
  refine ⟨h1, by rw [h1]; exact hsub, by rw [h1, hsub, ← hpct], fun hlt => ?_⟩
  have hrun : runTick t0 (resume t0 (pause s)) = tick t0 step (resume t0 (pause s)) := by
    apply runTick_run t0 _ step h2 h3 (by rw [h4]; exact hi)
    rw [h4]
    exact hstep
  have hlt2 : min 100 ((t0 - (resume t0 (pause s)).stepStartRef) /
      step.durationMs * 100) < 100 := by
    rw [h1, hsub, ← hpct]
    exact hlt
  obtain ⟨f1, f2⟩ := tick_fields t0 step (resume t0 (pause s)) hlt2
  rw [hrun, f1, f2, h1, hsub, ← hpct]
  exact ⟨rfl, rfl⟩

/-- Claim C1 witness: pausing the concrete running state (step 2, elapsed
1000 of 2000 ms, 50 percent) and resuming at time 9000 restores the same
elapsed time and stage progress on the next tick. -/
theorem C1_resume_continuity_witness :
    (resume 9000 (pause runningState)).stepStartRef = 9000 - 1000 ∧
    (runTick 9000 (resume 9000 (pause runningState))).1.elapsedRef = 1000 ∧
    (runTick 9000 (resume 9000 (pause runningState))).1.stepProgress =
      runningState.stepProgress := by
  have h := C1_resume_continuity runningState 1000 9000
    { key := "parse", label := "Parse fields (AI+rules)", durationMs := 2000 }
    rfl (by decide) rfl rfl (by norm_num [runningState, min_def])
  exact ⟨h.1, (h.2.2.2 (by decide)).1, (h.2.2.2 (by decide)).2⟩

/-- Claim C2: one scheduler tick at `now` on a running state with active
step `step` computes `elapsed = now - stepStartRef` and
`pct = min(100, 100 * elapsed / durationMs)`; below 100 it stores them and
keeps scheduling; at 100 with a next step it advances the index, zeroes
progress and elapsed time, rebases the reference to `now` and keeps
scheduling; at 100 on the last step it stores the values, clears
`processing` (status `Completed`) and stops scheduling. -/
theorem C2_tick_behaviour (s : PState) (now : ℚ) (step : StepDef)
    (hp : s.processing = true) (hq : s.paused = false) (hi : 0 ≤ s.currentStepIndex)
    (hstep : STEP_DEFINITIONS[s.currentStepIndex.toNat]? = some step) :
    (min 100 ((now - s.stepStartRef) / step.durationMs * 100) < 100 →
      runTick now s =
        ({ s with elapsedRef := now - s.stepStartRef,
                  stepProgress := min 100 ((now - s.stepStartRef) / step.durationMs * 100),
                  timerPending := true }, true)) ∧
    (100 ≤ min 100 ((now - s.stepStartRef) / step.durationMs * 100) →
      s.currentStepIndex + 1 < (STEP_DEFINITIONS.length : ℤ) →
      runTick now s =
        ({ s with currentStepIndex := s.currentStepIndex + 1,
                  stepProgress := 0, elapsedRef := 0, stepStartRef := now,
                  timerPending := true }, true)) ∧
    (100 ≤ min 100 ((now - s.stepStartRef) / step.durationMs * 100) →
      ¬ s.currentStepIndex + 1 < (STEP_DEFINITIONS.length : ℤ) →
      runTick now s =
        ({ s with elapsedRef := now - s.stepStartRef, stepProgress := 100,
                  processing := false, timerPending := false }, false) ∧
      status (runTick now s).1 = Status.Completed) := by
  have hrw : runTick now s = tick now step s := runTick_run now s step hp hq hi hstep
  refine ⟨fun h => ?_, fun h hadv => ?_, fun h hadv => ?_⟩
  · rw [hrw, tick_progress now step s h]
  · rw [hrw, tick_advance now step s h hadv]
  · have hmin : min 100 ((now - s.stepStartRef) / step.durationMs * 100) = 100 :=
      le_antisymm (min_le_left _ _) h
    have heq : runTick now s =
        ({ s with elapsedRef := now - s.stepStartRef,
                  stepProgress := 100, processing := false, timerPending := false }, false) := by
      rw [hrw, tick_complete now step s h hadv, hmin]
    refine ⟨heq, ?_⟩
    rw [heq]
    have hne : ¬ s.currentStepIndex = -1 := by omega
    simp [status, hne]

/-- Claim C2 witness: the three branches at concrete states — mid-step at
step 2, step boundary with a next step, and completion at the last
step. -/
theorem C2_tick_behaviour_witness :
    runTick 3500 runningState =
      ({ runningState with elapsedRef := 500,
                           stepProgress := min 100 (500 / 2000 * 100),
                           timerPending := true }, true) ∧
    runTick 5000 runningState =
      ({ runningState with currentStepIndex := 3,
                           stepProgress := 0, elapsedRef := 0, stepStartRef := 5000,
                           timerPending := true }, true) ∧
    runTick 5000 { runningState with currentStepIndex := 5, stepStartRef := 3500 } =
      ({ runningState with currentStepIndex := 5, stepStartRef := 3500,
                           elapsedRef := 1500, stepProgress := 100, processing := false,
                           timerPending := false }, false) := by
  refine ⟨?_, ?_, ?_⟩
  · have h := (C2_tick_behaviour runningState 3500
      { key := "parse", label := "Parse fields (AI+rules)", durationMs := 2000 }
      rfl rfl (by decide) rfl).1 (by norm_num [runningState, min_def])
    rw [h]
    norm_num [runningState, min_def]
  · have h := (C2_tick_behaviour runningState 5000
      { key := "parse", label := "Parse fields (AI+rules)", durationMs := 2000 }
      rfl rfl (by decide) rfl).2.1 (by norm_num [runningState, min_def]) (by decide)
    rw [h]
    norm_num [runningState]
  · have h := ((C2_tick_behaviour
      ({ runningState with currentStepIndex := 5, stepStartRef := 3500 }) 5000
      { key := "excel", label := "Build Excel report", durationMs := 1500 }
      rfl rfl (by decide) rfl).2.2 (by norm_num [runningState, min_def]) (by decide)).1
    rw [h]
    norm_num [runningState]

/-- Claim C10: a redundant `resume` while already running, at the time
`t0` at which `tick` last wrote `elapsedRef`, is the identity — the
rebased reference equals the old one — so a tick at `t0` after it equals
a tick at `t0` without it. -/
theorem C10_redundant_resume (s : PState) (t0 : ℚ)
    (hp : s.processing = true) (hq : s.paused = false)
    (hE : s.elapsedRef = t0 - s.stepStartRef) :
    resume t0 s = s ∧ runTick t0 (resume t0 s) = runTick t0 s := by
  have h1 : resume t0 s = s := by
    cases s
    simp_all [resume]
  exact ⟨h1, by rw [h1]⟩

/-- Claim C10 witness: at the concrete running state whose `elapsedRef`
was written by a tick at time 4000, a redundant resume at 4000 changes
nothing. -/
theorem C10_redundant_resume_witness :
    resume 4000 runningState = runningState ∧
    runTick 4000 (resume 4000 runningState) = runTick 4000 runningState :=
  C10_redundant_resume runningState 4000 rfl rfl (by norm_num [runningState])

/-- Claim C5: `overallProgress` is the pure clamped equal-weight formula of
the spec, and at `currentStepIndex = 1` with `stepProgress = 0` it equals
`100 / 6`. -/
theorem C5_overallProgress_formula (s : PState) :
    overallProgress s = overallProgressSpec s.currentStepIndex s.stepProgress ∧
    (s.currentStepIndex = 1 → s.stepProgress = 0 → overallProgress s = 100 / 6) := by
  refine ⟨rfl, fun h1 h2 => ?_⟩
  simp [overallProgress, STEP_DEFINITIONS, h1, h2]
  norm_num

/-- Claim C5 witness: the formula agreement and the concrete `100 / 6`
value at step index 1 with zero stage progress. -/
theorem C5_overallProgress_formula_witness :
    overallProgress { runningState with currentStepIndex := 1, stepProgress := 0 } =
      overallProgressSpec 1 0 ∧
    overallProgress { runningState with currentStepIndex := 1, stepProgress := 0 } = 100 / 6 :=
  ⟨(C5_overallProgress_formula _).1,
   (C5_overallProgress_formula _).2 rfl rfl⟩

/-- Claim C7: for every `sizeBytes ≥ 1` the planner returns a chunk count
between 1 and 10000 whose chunk size covers the whole file, and the
20000-default-chunk input stays within the 10000 limit. -/
theorem C7_partCount_bounds (n : ℕ) (h : 1 ≤ n) :
    1 ≤ (computePartPlan n).count ∧ (computePartPlan n).count ≤ 10000 ∧
    n ≤ (computePartPlan n).partSize * (computePartPlan n).count ∧
    computePartCount (8 * 1024 * 1024 * 20000) ≤ 10000 := by
  obtain ⟨h1, h2, h3⟩ := computePartPlan_spec n h
  exact ⟨h1, h2, h3, by decide⟩

/-- Claim C7 witness: the bounds instantiated at `sizeBytes = 1024`, and
the count component is exactly what `computePartCount` returns there. -/
theorem C7_partCount_bounds_witness :
    1 ≤ (computePartPlan 1024).count ∧ (computePartPlan 1024).count ≤ 10000 ∧
    1024 ≤ (computePartPlan 1024).partSize * (computePartPlan 1024).count ∧
    computePartCount 1024 = (computePartPlan 1024).count :=
  ⟨(C7_partCount_bounds 1024 (by norm_num)).1,
   (C7_partCount_bounds 1024 (by norm_num)).2.1,
   (C7_partCount_bounds 1024 (by norm_num)).2.2.1,
   by decide⟩

/-- Claim C8 counterexample: the planner does not clamp `sizeBytes` to at
least 1 — a zero-byte file plans to 0 chunks, not at least 1. -/
theorem C8_zero_bytes_counterexample :
    computePartCount 0 = 0 ∧ ¬ 1 ≤ computePartCount 0 := by decide

/-- Claim C8 as amended: the source has no minimum-duration guard and no
size clamp, and `computePartCount 0 = 0`; still, every `sizeBytes ≥ 1`
yields at least one chunk, and every configured stage duration is
positive, so the progress division in `tick` never has a zero divisor. -/
theorem C8_no_nan_amended :
    computePartCount 0 = 0 ∧
    (∀ n : ℕ, 1 ≤ n → 1 ≤ (computePartPlan n).count) ∧
    (∀ i : ℕ, ∀ hi : i < STEP_DEFINITIONS.length,
      0 < (STEP_DEFINITIONS.get ⟨i, hi⟩).durationMs) := by
  refine ⟨by decide, fun n hn => (computePartPlan_spec n hn).1, ?_⟩
  decide

/-- Claim C8 witness: the amended guarantees at `sizeBytes = 1` and at the
first configured stage. -/
theorem C8_no_nan_amended_witness :
    1 ≤ (computePartPlan 1).count ∧
    0 < (STEP_DEFINITIONS.get ⟨0, by decide⟩).durationMs :=
  ⟨C8_no_nan_amended.2.1 1 le_rfl, C8_no_nan_amended.2.2 0 (by decide)⟩

/-- Claim C9: `reset` from any state returns to not-started — status
`NotStarted`, not running, not paused, index `-1`, zero progress and
elapsed time — cancels the pending animation frame, and a subsequent
scheduler tick at any time is a guarded no-op that does not reschedule. -/
theorem C9_reset_unconditional (s : PState) :
    status (reset s) = Status.NotStarted ∧
    (reset s).processing = false ∧ (reset s).paused = false ∧
    (reset s).currentStepIndex = -1 ∧ (reset s).stepProgress = 0 ∧
    (reset s).elapsedRef = 0 ∧ (reset s).timerPending = false ∧
    (∀ t : ℚ, runTick t (reset s) = (reset s, false)) := by
  refine ⟨rfl, rfl, rfl, rfl, rfl, rfl, rfl, fun t => ?_⟩
  simp [runTick, reset]

/-- Claim C3 counterexample: `pause` is not a guarded no-op outside
`Running` — from the initial state (status `NotStarted`) it still flips
the paused flag, changing the state. -/
theorem C3_pause_counterexample :
    status initState ≠ Status.Running ∧ pause initState ≠ initState := by decide

/-- Claim C3 as amended: `startProcessing` with no file selected changes
nothing, and `resume` with `processing` false (`NotStarted` or
`Completed`) changes nothing; but `pause` is unconditional — it sets the
paused flag from any state and is a no-op only when already paused — and
`resume` while `processing` is true (also when already `Running`) rebases
the stage-start reference to `now - elapsedRef`. -/
theorem C3_guards_amended (s : PState) (now : ℚ) :
    (s.file = false → startProcessing now s = s) ∧
    (s.processing = false → resume now s = s) ∧
    pause s = { s with paused := true } ∧
    (s.paused = true → pause s = s) ∧
    (s.processing = true →
      resume now s = { s with paused := false, stepStartRef := now - s.elapsedRef }) := by
  refine ⟨fun h => ?_, fun h => ?_, rfl, fun h => ?_, fun h => ?_⟩
  · simp [startProcessing, h]
  · simp [resume, h]
  · cases s
    simp_all [pause]
  · simp [resume, h]

/-- Claim C3 witness: the amended guard behaviour at concrete states. -/
theorem C3_guards_amended_witness :
    startProcessing 5 initState = initState ∧
    resume 5 initState = initState ∧
    pause (pause runningState) = pause runningState ∧
    resume 5 runningState =
      { runningState with paused := false, stepStartRef := 5 - runningState.elapsedRef } :=
  ⟨(C3_guards_amended initState 5).1 rfl,
   (C3_guards_amended initState 5).2.1 rfl,
   (C3_guards_amended (pause runningState) 5).2.2.2.1 rfl,
   (C3_guards_amended runningState 5).2.2.2.2 rfl⟩

/-- Claim C4 counterexample: `startProcessing` has no status guard — from
a `Running` state with a file selected it restarts the run instead of
leaving the state unchanged. -/
theorem C4_start_counterexample :
    status runningState = Status.Running ∧
    startProcessing 1000 runningState ≠ runningState := by decide

/-- Claim C4 as amended: `startProcessing` is guarded only by file
selection; with a file selected it (re)starts the run from any status —
`Running` and `Paused` included — setting `processing`, clearing
`paused`, and resetting index, progress and timing; the
`status != Running` precondition is enforced only by the UI's disabled
button, not inside the function. -/
theorem C4_start_amended (s : PState) (now : ℚ) (hf : s.file = true) :
    startProcessing now s =
      { s with processing := true, paused := false, currentStepIndex := 0,
               stepProgress := 0, elapsedRef := 0, stepStartRef := now } := by
  simp [startProcessing, hf]

/-- Claim C4 witness: restarting from the concrete `Running` state. -/
theorem C4_start_amended_witness :
    startProcessing 1000 runningState =
      { runningState with processing := true, paused := false, currentStepIndex := 0,
                          stepProgress := 0, elapsedRef := 0, stepStartRef := 1000 } :=
  C4_start_amended runningState 1000 rfl

section RunInvariant

lemma lookup_some (i : ℕ) (hi : i < 6) :
    ∃ step : StepDef, STEP_DEFINITIONS[i]? = some step := by
  interval_cases i <;> exact ⟨_, rfl⟩

lemma durationMs_pos (i : ℕ) (step : StepDef)
    (h : STEP_DEFINITIONS[i]? = some step) : 0 < step.durationMs := by
  have hi : i < 6 := by
    by_contra hc
    rw [List.getElem?_eq_none (by simpa [STEP_DEFINITIONS] using Nat.le_of_not_lt hc)] at h
    exact Option.noConfusion h
  interval_cases i <;> (simp [STEP_DEFINITIONS] at h) <;> (rw [← h]) <;> norm_num

lemma overallProgress_eq (s : PState) :
    overallProgress s =
      min 100 (max 0 (((max 0 s.currentStepIndex : ℤ) : ℚ) * (100 / 6) +
        s.stepProgress / 100 * (100 / 6))) := by
  unfold overallProgress
  norm_num [STEP_DEFINITIONS]

lemma inv_start (s0 : PState) (t : ℚ) (hf : s0.file = true) :
    Inv (startProcessing t s0) t := by
  unfold startProcessing
  rw [if_neg (by simp [hf])]
  refine ⟨le_rfl, by norm_num, le_rfl, by norm_num, le_rfl,
    fun _ => ⟨by norm_num, fun step _ => ?_⟩⟩
  simp only [sub_self, zero_div, zero_mul]
  exact le_min (by norm_num) le_rfl

lemma inv_and_mono (s : PState) (t t' : ℚ) (hinv : Inv s t) (hle : t ≤ t') :
    Inv (runTick t' s).1 t' ∧ overallProgress s ≤ overallProgress (runTick t' s).1 := by
  obtain ⟨hi0, hi6, hp0, hp100, href, hproc⟩ := hinv
  by_cases hg : s.processing = false ∨ s.paused = true ∨ s.currentStepIndex < 0
  · have hrun : runTick t' s = (s, false) := by
      unfold runTick
      rw [if_pos hg]
    rw [hrun]
    refine ⟨⟨hi0, hi6, hp0, hp100, le_trans href hle, fun hp => ?_⟩, le_rfl⟩
    obtain ⟨hlt, hbound⟩ := hproc hp
    refine ⟨hlt, fun step hstep => ?_⟩
    have hd : 0 < step.durationMs := durationMs_pos _ _ hstep
    calc s.stepProgress
        ≤ min 100 ((t - s.stepStartRef) / step.durationMs * 100) := hbound step hstep
      _ ≤ min 100 ((t' - s.stepStartRef) / step.durationMs * 100) := by gcongr
  · push_neg at hg
    obtain ⟨hpn, hqn, hin⟩ := hg
    have hp : s.processing = true := by
      revert hpn
      cases s.processing <;> simp
    have hq : s.paused = false := by
      revert hqn
      cases s.paused <;> simp
    have hitn : s.currentStepIndex.toNat < 6 := by omega
    obtain ⟨step, hstep⟩ := lookup_some _ hitn
    have hd : 0 < step.durationMs := durationMs_pos _ _ hstep
    have hrt : runTick t' s = tick t' step s := runTick_run t' s step hp hq hin hstep
    obtain ⟨hlt100, hbound⟩ := hproc hp
    have hmono : min 100 ((t - s.stepStartRef) / step.durationMs * 100) ≤
        min 100 ((t' - s.stepStartRef) / step.durationMs * 100) := by
      gcongr
    have hple : s.stepProgress ≤ min 100 ((t' - s.stepStartRef) / step.durationMs * 100) :=
      le_trans (hbound step hstep) hmono
    by_cases h100 : 100 ≤ min 100 ((t' - s.stepStartRef) / step.durationMs * 100)
    · by_cases hadv : s.currentStepIndex + 1 < (STEP_DEFINITIONS.length : ℤ)
      · rw [hrt, tick_advance t' step s h100 hadv]
        have hlen : (STEP_DEFINITIONS.length : ℤ) = 6 := rfl
        rw [hlen] at hadv
        constructor
        · refine ⟨by dsimp only; omega, by dsimp only; omega, le_rfl, by norm_num, le_rfl,
            fun _ => ⟨by norm_num, fun step2 _ => ?_⟩⟩
          dsimp only
          simp only [sub_self, zero_div, zero_mul]
          exact le_min (by norm_num) le_rfl
        · rw [overallProgress_eq, overallProgress_eq]
          refine min_le_min le_rfl (max_le_max le_rfl ?_)
          dsimp only
          rw [max_eq_right hi0, max_eq_right (by omega : (0:ℤ) ≤ s.currentStepIndex + 1)]
          push_cast
          linarith
      · rw [hrt, tick_complete t' step s h100 hadv]
        have hpc : (0:ℚ) ≤ min 100 ((t' - s.stepStartRef) / step.durationMs * 100) := by
          linarith
        constructor
        · refine ⟨hi0, hi6, hpc, min_le_left _ _, le_trans href hle, fun hcontra => ?_⟩
          simp at hcontra
        · rw [overallProgress_eq, overallProgress_eq]
          refine min_le_min le_rfl (max_le_max le_rfl ?_)
          dsimp only
          rw [max_eq_right hi0]
          have : s.stepProgress / 100 * (100 / 6) ≤
              min 100 ((t' - s.stepStartRef) / step.durationMs * 100) / 100 * (100 / 6) := by
            gcongr
          linarith
    · rw [hrt, tick_progress t' step s (not_le.mp h100)]
      constructor
      · refine ⟨hi0, hi6, le_trans hp0 hple, min_le_left _ _, le_trans href hle,
          fun _ => ⟨not_le.mp h100, fun step2 hstep2 => ?_⟩⟩
        dsimp only at hstep2 ⊢
        rw [hstep] at hstep2
        injection hstep2 with he
        subst he
        exact le_rfl
      · rw [overallProgress_eq, overallProgress_eq]
        refine min_le_min le_rfl (max_le_max le_rfl ?_)
        dsimp only
        gcongr

lemma reach_inv (s : PState) (t : ℚ) (h : Reach s t) : Inv s t := by
  induction h with
  | start s0 t hf => exact inv_start s0 t hf
  | tickStep s t t' h hle ih => exact (inv_and_mono s t t' ih hle).1

end RunInvariant

/-- Claim C6: within a run started by `startProcessing` and driven by
ticks at non-decreasing timestamps, `overallProgress` is 0 immediately
after the start, never decreases across a tick, and equals 100 only in
`Completed` states. -/
theorem C6_overall_invariants :
    (∀ (s0 : PState) (t : ℚ), s0.file = true →
      overallProgress (startProcessing t s0) = 0) ∧
    (∀ (s : PState) (t t' : ℚ), Reach s t → t ≤ t' →
      overallProgress s ≤ overallProgress (runTick t' s).1) ∧
    (∀ (s : PState) (t : ℚ), Reach s t → overallProgress s = 100 →
      status s = Status.Completed) := by
  refine ⟨fun s0 t hf => ?_,
    fun s t t' h hle => (inv_and_mono s t t' (reach_inv s t h) hle).2,
    fun s t h h100 => ?_⟩
  · unfold startProcessing
    rw [if_neg (by simp [hf])]
    rw [overallProgress_eq]
    norm_num
  · obtain ⟨hi0, hi6, hp0, hp100, href, hproc⟩ := reach_inv s t h
    have hpf : s.processing = false := by
      by_contra hc
      have hp : s.processing = true := by
        revert hc
        cases s.processing <;> simp
      obtain ⟨hlt, _⟩ := hproc hp
      have hidx5 : ((max 0 s.currentStepIndex : ℤ) : ℚ) ≤ 5 := by
        rw [max_eq_right hi0]
        exact_mod_cast by omega
      have hcore : ((max 0 s.currentStepIndex : ℤ) : ℚ) * (100 / 6) +
          s.stepProgress / 100 * (100 / 6) < 100 := by
        nlinarith
      have : overallProgress s < 100 := by
        rw [overallProgress_eq]
        calc min 100 (max 0 (((max 0 s.currentStepIndex : ℤ) : ℚ) * (100 / 6) +
              s.stepProgress / 100 * (100 / 6)))
            ≤ max 0 (((max 0 s.currentStepIndex : ℤ) : ℚ) * (100 / 6) +
              s.stepProgress / 100 * (100 / 6)) := min_le_right _ _
          _ < 100 := max_lt (by norm_num) hcore
      rw [h100] at this
      norm_num at this
    unfold status
    rw [if_neg (by omega), if_neg (by simp [hpf])]

/-- Claim C6 witness: a concrete full run — start at time 0, ticks at the
stage boundaries 2000, 5000, 7000, 8500, 10000, 11500 — starts at overall
progress 0, is non-decreasing on the first tick, and the final state has
overall progress 100 with status `Completed`. -/
theorem C6_overall_invariants_witness :
    overallProgress (startProcessing 0 fileReady) = 0 ∧
    overallProgress (startProcessing 0 fileReady) ≤
      overallProgress (runTick 2000 (startProcessing 0 fileReady)).1 ∧
    status (runTick 11500 (runTick 10000 (runTick 8500 (runTick 7000 (runTick 5000
      (runTick 2000 (startProcessing 0 fileReady)).1).1).1).1).1).1 =
      Status.Completed := by
  have r0 : Reach (startProcessing 0 fileReady) 0 := Reach.start fileReady 0 rfl
  have r1 := Reach.tickStep _ 0 2000 r0 (by norm_num)
  have r2 := Reach.tickStep _ 2000 5000 r1 (by norm_num)
  have r3 := Reach.tickStep _ 5000 7000 r2 (by norm_num)
  have r4 := Reach.tickStep _ 7000 8500 r3 (by norm_num)
  have r5 := Reach.tickStep _ 8500 10000 r4 (by norm_num)
  have r6 := Reach.tickStep _ 10000 11500 r5 (by norm_num)
  have e0 : startProcessing 0 fileReady = c6s0 := by decide
  have e1 : (runTick 2000 c6s0).1 = c6s1 := by
    rw [runTick_run 2000 c6s0
          { key := "extract", label := "Extract audio (ffmpeg)", durationMs := 2000 }
          rfl rfl (by decide) rfl,
        tick_advance 2000 _ c6s0 (by norm_num [c6s0, min_def]) (by decide)]
    norm_num [c6s0, c6s1]
  have e2 : (runTick 5000 c6s1).1 = c6s2 := by
    rw [runTick_run 5000 c6s1
          { key := "transcribe", label := "Transcribe (Whisper)", durationMs := 3000 }
          rfl rfl (by decide) rfl,
        tick_advance 5000 _ c6s1 (by norm_num [c6s1, min_def]) (by decide)]
    norm_num [c6s1, c6s2]
  have e3 : (runTick 7000 c6s2).1 = c6s3 := by
    rw [runTick_run 7000 c6s2
          { key := "parse", label := "Parse fields (AI+rules)", durationMs := 2000 }
          rfl rfl (by decide) rfl,
        tick_advance 7000 _ c6s2 (by norm_num [c6s2, min_def]) (by decide)]
    norm_num [c6s2, c6s3]
  have e4 : (runTick 8500 c6s3).1 = c6s4 := by
    rw [runTick_run 8500 c6s3
          { key := "merge", label := "Merge top/bottom", durationMs := 1500 }
          rfl rfl (by decide) rfl,
        tick_advance 8500 _ c6s3 (by norm_num [c6s3, min_def]) (by decide)]
    norm_num [c6s3, c6s4]
  have e5 : (runTick 10000 c6s4).1 = c6s5 := by
    rw [runTick_run 10000 c6s4
          { key := "screenshots", label := "Auto screenshots", durationMs := 1500 }
          rfl rfl (by decide) rfl,
        tick_advance 10000 _ c6s4 (by norm_num [c6s4, min_def]) (by decide)]
    norm_num [c6s4, c6s5]
  have e6 : (runTick 11500 c6s5).1 = c6s6 := by
    rw [runTick_run 11500 c6s5
          { key := "excel", label := "Build Excel report", durationMs := 1500 }
          rfl rfl (by decide) rfl,
        tick_complete 11500 _ c6s5 (by norm_num [c6s5, min_def]) (by decide)]
    norm_num [c6s5, c6s6, min_def]
  refine ⟨C6_overall_invariants.1 fileReady 0 rfl,
    C6_overall_invariants.2.1 _ 0 2000 r0 (by norm_num),
    C6_overall_invariants.2.2 _ 11500 r6 ?_⟩
  rw [e0, e1, e2, e3, e4, e5, e6]
  norm_num [overallProgress_eq, c6s6, min_def, max_def]

end Ingestion
